import Mathlib

/-!
Shallow embedding of the `ctimer` header library (`ctimer.h`).

Machine integers (`time_t` / `long` fields of `struct timespec`) are modelled
as unbounded `Int`, with all claims read "assuming no integer overflow" as the
specification states.  The monotonic clock is modelled as an explicit sample
argument to `ctimer_start` / `ctimer_stop`; stopwatch mutation is modelled by
explicit state passing on the `ctimer_t` structure.
-/

namespace Ctimer

/-- Unit conversion constant `_MSEC_PER_SEC` from `ctimer.h`. -/
def MSEC_PER_SEC : Int := 1000

/-- Unit conversion constant `_USEC_PER_SEC` from `ctimer.h`. -/
def USEC_PER_SEC : Int := 1000 * 1000

/-- Unit conversion constant `_NSEC_PER_SEC` from `ctimer.h`. -/
def NSEC_PER_SEC : Int := 1000 * 1000 * 1000

/-- `timespec_t` (alias for `struct timespec`): a whole-seconds component
`tv_sec` and a sub-second nanoseconds component `tv_nsec`, both signed. -/
structure timespec_t where
  tv_sec : Int
  tv_nsec : Int
deriving Repr, DecidableEq

/-- A timestamp is normalized when its nanosecond component lies in
`[0, 10^9)`. -/
def normalized (t : timespec_t) : Prop :=
  0 ≤ t.tv_nsec ∧ t.tv_nsec < NSEC_PER_SEC

instance (t : timespec_t) : Decidable (normalized t) := by
  unfold normalized; infer_instance

/-- `timespec_sub td t1 t2` from `ctimer.h` (the output parameter `td` is the
return value here): raw component-wise subtraction `t2 - t1` followed by the
two sign-disagreement normalization branches. -/
def timespec_sub (t1 t2 : timespec_t) : timespec_t :=
  let ns := t2.tv_nsec - t1.tv_nsec
  let s := t2.tv_sec - t1.tv_sec
  if s > 0 ∧ ns < 0 then
    { tv_sec := s - 1, tv_nsec := ns + NSEC_PER_SEC }
  else if s < 0 ∧ ns > 0 then
    { tv_sec := s + 1, tv_nsec := ns - NSEC_PER_SEC }
  else
    { tv_sec := s, tv_nsec := ns }

/-- `timespec_add t1 t2` from `ctimer.h` (the in-out parameter `t1` is the
return value here): component-wise addition followed by a single conditional
carry when the nanosecond sum reaches `10^9`. -/
def timespec_add (t1 t2 : timespec_t) : timespec_t :=
  let ns := t1.tv_nsec + t2.tv_nsec
  let s := t1.tv_sec + t2.tv_sec
  if ns ≥ NSEC_PER_SEC then
    { tv_sec := s + 1, tv_nsec := ns - NSEC_PER_SEC }
  else
    { tv_sec := s, tv_nsec := ns }

/-- `timespec_msec` from `ctimer.h`: `t.tv_sec * _MSEC_PER_SEC +
t.tv_nsec / _USEC_PER_SEC`, with C `long` division (truncation toward zero,
`Int.tdiv`). -/
def timespec_msec (t : timespec_t) : Int :=
  t.tv_sec * MSEC_PER_SEC + Int.tdiv t.tv_nsec USEC_PER_SEC

/-- `timespec_usec` from `ctimer.h`: `t.tv_sec * _USEC_PER_SEC +
t.tv_nsec / _MSEC_PER_SEC`, with C `long` division (truncation toward zero). -/
def timespec_usec (t : timespec_t) : Int :=
  t.tv_sec * USEC_PER_SEC + Int.tdiv t.tv_nsec MSEC_PER_SEC

/-- `timespec_nsec` from `ctimer.h`: `t.tv_sec * _NSEC_PER_SEC + t.tv_nsec`. -/
def timespec_nsec (t : timespec_t) : Int :=
  t.tv_sec * NSEC_PER_SEC + t.tv_nsec

/-- `ctimer_t`: stopwatch struct holding start (`tic`), end (`toc`) and
elapsed timespecs. -/
structure ctimer_t where
  tic : timespec_t
  toc : timespec_t
  elapsed : timespec_t
deriving Repr, DecidableEq

/-- `ctimer_measure` from `ctimer.h`: store `timespec_sub(tic, toc)` into the
`elapsed` field. -/
def ctimer_measure (t : ctimer_t) : ctimer_t :=
  { t with elapsed := timespec_sub t.tic t.toc }

/-- `ctimer_lap` from `ctimer.h`: compute `timespec_sub(tic, toc)` into a
temporary `lap_buf`, then add it into the `elapsed` field. -/
def ctimer_lap (t : ctimer_t) : ctimer_t :=
  let lap_buf := timespec_sub t.tic t.toc
  { t with elapsed := timespec_add t.elapsed lap_buf }

/-- `ctimer_reset` from `ctimer.h`: zero out the `elapsed` field. -/
def ctimer_reset (t : ctimer_t) : ctimer_t :=
  { t with elapsed := { tv_sec := 0, tv_nsec := 0 } }

/-- `ctimer_start` from `ctimer.h`: store the monotonic clock sample (here an
explicit argument `sample`) into the `tic` field. -/
def ctimer_start (sample : timespec_t) (t : ctimer_t) : ctimer_t :=
  { t with tic := sample }

/-- `ctimer_stop` from `ctimer.h` with `CTIMER_MEASURE_ON_STOP` undefined:
store the monotonic clock sample into the `toc` field and nothing else. -/
def ctimer_stop (sample : timespec_t) (t : ctimer_t) : ctimer_t :=
  { t with toc := sample }

/-- `ctimer_stop` from `ctimer.h` with `CTIMER_MEASURE_ON_STOP` defined:
store the monotonic clock sample into the `toc` field, then call
`ctimer_measure` on the stopwatch. -/
def ctimer_stop_measure_on_stop (sample : timespec_t) (t : ctimer_t) : ctimer_t :=
  ctimer_measure { t with toc := sample }

/-- One iteration of the multi-lap usage pattern: `ctimer_start` with sample
`p.1`, `ctimer_stop` with sample `p.2`, then `ctimer_lap`. -/
def ctimer_iteration (t : ctimer_t) (p : timespec_t × timespec_t) : ctimer_t :=
  ctimer_lap (ctimer_stop p.2 (ctimer_start p.1 t))

/-- Run the multi-lap pattern over a trace of (start sample, stop sample)
pairs. -/
def ctimer_run (t : ctimer_t) (trace : List (timespec_t × timespec_t)) : ctimer_t :=
  trace.foldl ctimer_iteration t

/-- `timespec_sub` preserves total nanoseconds: the normalization branches
only move `10^9` nanoseconds between the two fields. -/
theorem timespec_sub_nsec (t1 t2 : timespec_t) :
    timespec_nsec (timespec_sub t1 t2) = timespec_nsec t2 - timespec_nsec t1 := by
  simp only [timespec_sub, timespec_nsec, NSEC_PER_SEC]
  split_ifs <;> ring

/-- `timespec_add` preserves total nanoseconds: the carry branch only moves
`10^9` nanoseconds between the two fields. -/
theorem timespec_add_nsec (t1 t2 : timespec_t) :
    timespec_nsec (timespec_add t1 t2) = timespec_nsec t1 + timespec_nsec t2 := by
  simp only [timespec_add, timespec_nsec, NSEC_PER_SEC]
  split_ifs <;> ring

/-- Total nanoseconds accumulated by one multi-lap iteration: the iteration
adds exactly the difference of its stop and start samples into `elapsed`. -/
theorem ctimer_iteration_elapsed_nsec (t : ctimer_t) (p : timespec_t × timespec_t) :
    timespec_nsec (ctimer_iteration t p).elapsed =
      timespec_nsec t.elapsed + (timespec_nsec p.2 - timespec_nsec p.1) := by
  simp only [ctimer_iteration, ctimer_lap, ctimer_stop, ctimer_start]
  rw [timespec_add_nsec, timespec_sub_nsec]

/-- Total nanoseconds accumulated by a run of the multi-lap pattern. -/
theorem ctimer_run_elapsed_nsec (trace : List (timespec_t × timespec_t)) (t : ctimer_t) :
    timespec_nsec (ctimer_run t trace).elapsed =
      timespec_nsec t.elapsed +
        (trace.map (fun p => timespec_nsec p.2 - timespec_nsec p.1)).sum := by
  induction trace generalizing t with
  | nil => simp [ctimer_run]
  | cons p ps ih =>
    have h1 : ctimer_run t (p :: ps) = ctimer_run (ctimer_iteration t p) ps := rfl
    rw [h1, ih, ctimer_iteration_elapsed_nsec, List.map_cons, List.sum_cons]
    ring

/-- After a nonempty run of the multi-lap pattern, `tic` and `toc` hold the
last iteration's samples. -/
theorem ctimer_run_tic_toc (p : timespec_t × timespec_t)
    (ps : List (timespec_t × timespec_t)) (t : ctimer_t) :
    (ctimer_run t (p :: ps)).tic = ((p :: ps).getLast (List.cons_ne_nil p ps)).1 ∧
    (ctimer_run t (p :: ps)).toc = ((p :: ps).getLast (List.cons_ne_nil p ps)).2 := by
  induction ps generalizing t p with
  | nil =>
    constructor <;> rfl
  | cons q qs ih =>
    have h1 : ctimer_run t (p :: q :: qs) = ctimer_run (ctimer_iteration t p) (q :: qs) := rfl
    have h2 : (p :: q :: qs).getLast (List.cons_ne_nil p (q :: qs)) =
        (q :: qs).getLast (List.cons_ne_nil q qs) := List.getLast_cons (List.cons_ne_nil q qs)
    rw [h1, h2]
    exact ih q (ctimer_iteration t p)

/-- Claim C1: for normalized timestamps `a`, `b` with `b` chronologically
after `a` (total nanoseconds of `b` at least that of `a`), `timespec_sub`
with `t1 = a`, `t2 = b` yields a non-negative seconds component and its total
nanoseconds equal `timespec_nsec b - timespec_nsec a` exactly. -/
theorem claim_C1_difference_after (a b : timespec_t)
    (ha : normalized a) (hb : normalized b)
    (hab : timespec_nsec a ≤ timespec_nsec b) :
    0 ≤ (timespec_sub a b).tv_sec ∧
    timespec_nsec (timespec_sub a b) = timespec_nsec b - timespec_nsec a := by
  refine ⟨?_, timespec_sub_nsec a b⟩
  obtain ⟨ha1, ha2⟩ := ha
  obtain ⟨hb1, hb2⟩ := hb
  simp only [timespec_nsec, NSEC_PER_SEC] at hab ha2 hb2
  simp only [timespec_sub, NSEC_PER_SEC]
  split_ifs <;> dsimp only <;> omega

/-- Witness for claim C1 at `a = {0 s, 0 ns}`, `b = {1 s, 5 ns}`. -/
theorem claim_C1_difference_after_witness :
    0 ≤ (timespec_sub ⟨0, 0⟩ ⟨1, 5⟩).tv_sec ∧
    timespec_nsec (timespec_sub ⟨0, 0⟩ ⟨1, 5⟩) =
      timespec_nsec ⟨1, 5⟩ - timespec_nsec ⟨0, 0⟩ :=
  claim_C1_difference_after ⟨0, 0⟩ ⟨1, 5⟩ (by decide) (by decide) (by decide)

/-- Claim C2: after `ctimer_reset`, running `n ≥ 1` iterations of
`ctimer_start` (sample `p.1`), `ctimer_stop` (sample `p.2`), `ctimer_lap`
over a trace of normalized samples leaves `elapsed` holding the accumulated
total of per-iteration differences in total nanoseconds, while `tic` and
`toc` hold exactly the last iteration's samples. -/
theorem claim_C2_multilap (t : ctimer_t) (trace : List (timespec_t × timespec_t))
    (hne : trace ≠ [])
    (hnorm : ∀ p ∈ trace, normalized p.1 ∧ normalized p.2) :
    timespec_nsec (ctimer_run (ctimer_reset t) trace).elapsed =
      (trace.map (fun p => timespec_nsec p.2 - timespec_nsec p.1)).sum ∧
    (ctimer_run (ctimer_reset t) trace).tic = (trace.getLast hne).1 ∧
    (ctimer_run (ctimer_reset t) trace).toc = (trace.getLast hne).2 := by
  match trace with
  | p :: ps =>
    refine ⟨?_, ctimer_run_tic_toc p ps (ctimer_reset t)⟩
    rw [ctimer_run_elapsed_nsec]
    simp [ctimer_reset, timespec_nsec]

/-- Witness for claim C2 on a two-iteration trace. -/
theorem claim_C2_multilap_witness :
    timespec_nsec (ctimer_run (ctimer_reset ⟨⟨7, 8⟩, ⟨9, 10⟩, ⟨11, 12⟩⟩)
        [(⟨0, 0⟩, ⟨1, 0⟩), (⟨2, 5⟩, ⟨3, 7⟩)]).elapsed =
      (([(⟨0, 0⟩, ⟨1, 0⟩), (⟨2, 5⟩, ⟨3, 7⟩)] :
          List (timespec_t × timespec_t)).map
        (fun p => timespec_nsec p.2 - timespec_nsec p.1)).sum ∧
    (ctimer_run (ctimer_reset ⟨⟨7, 8⟩, ⟨9, 10⟩, ⟨11, 12⟩⟩)
        [(⟨0, 0⟩, ⟨1, 0⟩), (⟨2, 5⟩, ⟨3, 7⟩)]).tic =
      (([(⟨0, 0⟩, ⟨1, 0⟩), (⟨2, 5⟩, ⟨3, 7⟩)] :
          List (timespec_t × timespec_t)).getLast (by simp)).1 ∧
    (ctimer_run (ctimer_reset ⟨⟨7, 8⟩, ⟨9, 10⟩, ⟨11, 12⟩⟩)
        [(⟨0, 0⟩, ⟨1, 0⟩), (⟨2, 5⟩, ⟨3, 7⟩)]).toc =
      (([(⟨0, 0⟩, ⟨1, 0⟩), (⟨2, 5⟩, ⟨3, 7⟩)] :
          List (timespec_t × timespec_t)).getLast (by simp)).2 :=
  claim_C2_multilap ⟨⟨7, 8⟩, ⟨9, 10⟩, ⟨11, 12⟩⟩
    [(⟨0, 0⟩, ⟨1, 0⟩), (⟨2, 5⟩, ⟨3, 7⟩)] (by simp) (by decide)

/-- Claim C3: `timespec_add` preserves total nanoseconds —
`timespec_nsec (timespec_add a b) = timespec_nsec a + timespec_nsec b` — and
in particular is commutative in total nanoseconds. -/
theorem claim_C3_sum_total_nanos (a b : timespec_t) :
    timespec_nsec (timespec_add a b) = timespec_nsec a + timespec_nsec b ∧
    timespec_nsec (timespec_add a b) = timespec_nsec (timespec_add b a) := by
  refine ⟨timespec_add_nsec a b, ?_⟩
  rw [timespec_add_nsec, timespec_add_nsec]
  ring

/-- Claim C4: with `CTIMER_MEASURE_ON_STOP` defined, `ctimer_stop` leaves the
stopwatch in exactly the state that plain `ctimer_stop` followed by
`ctimer_measure` produces; in particular, start then stop yields
`elapsed = timespec_sub tic toc`. -/
theorem claim_C4_measure_on_stop (t : ctimer_t) (sample : timespec_t) :
    ctimer_stop_measure_on_stop sample t = ctimer_measure (ctimer_stop sample t) ∧
    ∀ b e : timespec_t,
      (ctimer_stop_measure_on_stop e (ctimer_start b t)).elapsed = timespec_sub b e := by
  exact ⟨rfl, fun b e => rfl⟩

/-- Claim C5: adding two individually normalized timestamps yields a
normalized result after the single conditional carry step, including the
boundary case where the raw nanosecond sum is exactly `10^9`. -/
theorem claim_C5_add_normalized (a b : timespec_t)
    (ha : normalized a) (hb : normalized b) :
    normalized (timespec_add a b) := by
  obtain ⟨ha1, ha2⟩ := ha
  obtain ⟨hb1, hb2⟩ := hb
  simp only [NSEC_PER_SEC] at ha2 hb2
  simp only [normalized, timespec_add, NSEC_PER_SEC]
  split_ifs <;> dsimp only <;> omega

/-- Witness for claim C5 at the exact-carry boundary:
`500000000 + 500000000 = 10^9`. -/
theorem claim_C5_add_normalized_witness :
    normalized (timespec_add ⟨0, 500000000⟩ ⟨0, 500000000⟩) :=
  claim_C5_add_normalized ⟨0, 500000000⟩ ⟨0, 500000000⟩ (by decide) (by decide)

/-- Claim C6: borrow correctness of `timespec_sub` —
`timespec_sub {5, 100} {6, 50}` is exactly `{0, 999999950}`. -/
theorem claim_C6_borrow :
    timespec_sub ⟨5, 100⟩ ⟨6, 50⟩ = ⟨0, 999999950⟩ := by
  decide

/-- Claim C7: for normalized timestamps, swapping the operands of
`timespec_sub` negates the total nanoseconds of the result. -/
theorem claim_C7_antisymm (a b : timespec_t)
    (ha : normalized a) (hb : normalized b) :
    timespec_nsec (timespec_sub a b) = -timespec_nsec (timespec_sub b a) := by
  rw [timespec_sub_nsec, timespec_sub_nsec]
  ring

/-- Witness for claim C7 at `a = {0 s, 1 ns}`, `b = {2 s, 3 ns}`. -/
theorem claim_C7_antisymm_witness :
    timespec_nsec (timespec_sub ⟨0, 1⟩ ⟨2, 3⟩) =
      -timespec_nsec (timespec_sub ⟨2, 3⟩ ⟨0, 1⟩) :=
  claim_C7_antisymm ⟨0, 1⟩ ⟨2, 3⟩ (by decide) (by decide)

/-- Claim C8: `ctimer_reset` sets `elapsed` to the zero timestamp (so its
total nanoseconds are 0) and leaves `tic` and `toc` unchanged. -/
theorem claim_C8_reset (t : ctimer_t) :
    (ctimer_reset t).elapsed = { tv_sec := 0, tv_nsec := 0 } ∧
    timespec_nsec (ctimer_reset t).elapsed = 0 ∧
    (ctimer_reset t).tic = t.tic ∧
    (ctimer_reset t).toc = t.toc := by
  refine ⟨rfl, ?_, rfl, rfl⟩
  simp [ctimer_reset, timespec_nsec]

/-- Claim C9: for timestamps with non-negative components,
`timespec_msec t` equals `timespec_nsec t` divided by `10^6` with C-style
truncating integer division. -/
theorem claim_C9_msec_roundtrip (t : timespec_t)
    (hs : 0 ≤ t.tv_sec) (hn : 0 ≤ t.tv_nsec) :
    timespec_msec t = Int.tdiv (timespec_nsec t) 1000000 := by
  simp only [timespec_msec, timespec_nsec, MSEC_PER_SEC, USEC_PER_SEC, NSEC_PER_SEC]
  rw [Int.tdiv_eq_ediv hn (by norm_num),
    Int.tdiv_eq_ediv (by positivity) (by norm_num)]
  omega

/-- Witness for claim C9 at `t = {3 s, 2500000 ns}`. -/
theorem claim_C9_msec_roundtrip_witness :
    timespec_msec ⟨3, 2500000⟩ = Int.tdiv (timespec_nsec ⟨3, 2500000⟩) 1000000 :=
  claim_C9_msec_roundtrip ⟨3, 2500000⟩ (by decide) (by decide)

/-- Claim C10: `ctimer_measure` is idempotent — it computes `elapsed` from
`tic` and `toc` only, modifies no other field, so a second call reproduces
the same state. -/
theorem claim_C10_measure_idempotent (t : ctimer_t) :
    ctimer_measure (ctimer_measure t) = ctimer_measure t := rfl

end Ctimer
